import Mathlib

/-!
Verification of the RealEstate repository's core algorithms against its
natural-language specification.

The definitions below are a shallow embedding of the Python source:

* the kanban deal pipeline of `Dashboard/views.py` (`deals` POST branch,
  `deal_detail` DELETE branch, `move_deal`), modelled as pure transformations
  of a list of deal records;
* the investment-metrics calculator `InvestmentMetrics.calculate_metrics`
  and the loan-amortization property `UserOwnedProperty.remaining_loan_balance`
  of `Dashboard/models.py`, modelled over exact rationals;
* the portfolio aggregator `PortfolioMetrics.calculate_metrics` of
  `Dashboard/models.py`.

Django `DecimalField`/float arithmetic is modelled by `ℚ`; a nullable field
is an `Option`; Python truthiness of a nullable numeric field (`if x:`) is
`x ≠ None ∧ x ≠ 0`.
-/

/-- A row of the `Deal` table, restricted to the fields the pipeline
reconciliation logic reads or writes: primary key `id`, `created_by` owner,
`stage` foreign key and integer `position`.  Stages and users are identified
by numbers. -/
structure Deal where
  id : Nat
  owner : Nat
  stage : Nat
  pos : Nat
deriving DecidableEq, Repr

/-- The deal table (all rows, across all users). -/
abbrev PipelineState := List Deal

/-- `Deal.objects.filter(stage=stage).aggregate(Max('position'))` of
views.py line 918: maximum position over all deals of a stage, every
owner included, `none` when the stage has no deals. -/
def maxPosition (s : PipelineState) (st : Nat) : Option Nat :=
  match s with
  | [] => none
  | d :: rest =>
    let r := maxPosition rest st
    if d.stage = st then
      match r with
      | none => some d.pos
      | some m => some (max d.pos m)
    else r

/-- The POST branch of `deals` (views.py lines 917-950): the new deal is
appended with `position = (max_position or 0) + 1`.  Python's `or` turns both
`None` and `0` into `0`, hence `getD 0`; an empty stage therefore yields
position `1`. -/
def createDeal (s : PipelineState) (u st newId : Nat) : PipelineState :=
  s ++ [⟨newId, u, st, (maxPosition s st).getD 0 + 1⟩]

/-- `Deal.objects.get(id=deal_id, created_by=request.user)`: the row lookup
used by `deal_detail` and `move_deal`. -/
def findDeal (s : PipelineState) (u did : Nat) : Option Deal :=
  s.find? (fun d => d.id = did ∧ d.owner = u)

/-- The DELETE branch of `deal_detail` (views.py lines 1073-1077):
`deal.delete()` removes the row and nothing else — no position is shifted.
A failed lookup (404) leaves the table unchanged. -/
def deleteDeal (s : PipelineState) (u did : Nat) : PipelineState :=
  match findDeal s u did with
  | none => s
  | some _ => s.filter (fun d => ¬(d.id = did ∧ d.owner = u))

/-- The row transformation of a cross-stage move (views.py lines 1111-1129):
close the gap in the source stage, open a slot in the target stage, place the
moved deal.  Both bulk updates are scoped to `created_by=request.user`; the
moved row matches neither update filter, so a single pass is faithful. -/
def crossShift (u did oldStage oldPos tgtStage tgtPos : Nat) (d : Deal) : Deal :=
  if d.id = did ∧ d.owner = u then { d with stage := tgtStage, pos := tgtPos }
  else if d.owner = u ∧ d.stage = oldStage ∧ oldPos < d.pos then { d with pos := d.pos - 1 }
  else if d.owner = u ∧ d.stage = tgtStage ∧ tgtPos ≤ d.pos then { d with pos := d.pos + 1 }
  else d

/-- Same-stage move to a higher position (views.py lines 1133-1140):
rows strictly between `(old_position, target_position]` shift down by one,
the moved row (excluded from the bulk update) is placed at the target. -/
def downShift (u did oldPos tgtPos stg : Nat) (d : Deal) : Deal :=
  if d.id = did ∧ d.owner = u then { d with pos := tgtPos }
  else if d.owner = u ∧ d.stage = stg ∧ oldPos < d.pos ∧ d.pos ≤ tgtPos then
    { d with pos := d.pos - 1 }
  else d

/-- Same-stage move to a lower position (views.py lines 1141-1148):
rows in `[target_position, old_position)` shift up by one, the moved row is
placed at the target. -/
def upShift (u did oldPos tgtPos stg : Nat) (d : Deal) : Deal :=
  if d.id = did ∧ d.owner = u then { d with pos := tgtPos }
  else if d.owner = u ∧ d.stage = stg ∧ tgtPos ≤ d.pos ∧ d.pos < oldPos then
    { d with pos := d.pos + 1 }
  else d

/-- `move_deal` (views.py lines 1082-1159).  `none` models a rejection
(deal not found, nothing changed); `some s'` models the success response
together with the table after the transaction.  When target stage and
position both equal the current ones, no update statement runs. -/
def moveDeal (s : PipelineState) (u did tgtStage tgtPos : Nat) : Option PipelineState :=
  match findDeal s u did with
  | none => none
  | some dm =>
    if dm.stage ≠ tgtStage then
      some (s.map (crossShift u did dm.stage dm.pos tgtStage tgtPos))
    else if dm.pos ≠ tgtPos then
      if dm.pos < tgtPos then some (s.map (downShift u did dm.pos tgtPos tgtStage))
      else some (s.map (upShift u did dm.pos tgtPos tgtStage))
    else some s

/-- One user-issued pipeline operation, as exposed by the HTTP surface. -/
inductive Op where
  | create (stageId : Nat)
  | move (dealId tgtStage tgtPos : Nat)
  | del (dealId : Nat)
deriving DecidableEq, Repr

/-- Django's auto-increment primary key: a fresh id strictly above every id
in the table. -/
def nextId (s : PipelineState) : Nat :=
  (s.map Deal.id).foldr max 0 + 1

/-- Apply one operation issued by user `u`. -/
def applyOp (u : Nat) (s : PipelineState) : Op → PipelineState
  | .create st => createDeal s u st (nextId s)
  | .move did st p => (moveDeal s u did st p).getD s
  | .del did => deleteDeal s u did

/-- Apply a sequence of operations issued by user `u`, left to right. -/
def applyOps (u : Nat) (s : PipelineState) : List Op → PipelineState
  | [] => s
  | op :: rest => applyOps u (applyOp u s op) rest

/-- The positions of user `u`'s deals in stage `st`. -/
def userStagePositions (s : PipelineState) (u st : Nat) : List Nat :=
  (s.filter (fun d => d.owner = u ∧ d.stage = st)).map Deal.pos

/-- The spec's stage/position invariant: the multiset of positions of the
user's deals in a stage is exactly `{0, 1, ..., count-1}`. -/
def contiguousStage (s : PipelineState) (u st : Nat) : Prop :=
  (userStagePositions s u st : Multiset Nat) =
    Multiset.range (userStagePositions s u st).length

instance (s : PipelineState) (u st : Nat) : Decidable (contiguousStage s u st) := by
  unfold contiguousStage; infer_instance

/-- No two rows share a primary key. -/
def idsOk (s : PipelineState) : Prop := (s.map Deal.id).Nodup

/-- Within one owner and one stage, positions determine the row. -/
def posOk (s : PipelineState) : Prop :=
  ∀ d1 ∈ s, ∀ d2 ∈ s, d1.owner = d2.owner → d1.stage = d2.stage →
    d1.pos = d2.pos → d1.id = d2.id

/-- The invariant the pipeline operations actually maintain. -/
def pipelineInv (s : PipelineState) : Prop := idsOk s ∧ posOk s

/-- Python truthiness of a nullable `Decimal` field (`if x:`): false for
`NULL` and for a stored zero alike. -/
def truthy : Option ℚ → Prop
  | none => False
  | some q => q ≠ 0

instance (o : Option ℚ) : Decidable (truthy o) :=
  match o with
  | none => isFalse fun h => h
  | some q => if h : q = 0 then isFalse (fun hq => hq h) else isTrue h

/-- Python truthiness of a nullable integer field. -/
def truthyNat : Option ℕ → Prop
  | none => False
  | some n => n ≠ 0

instance (o : Option ℕ) : Decidable (truthyNat o) :=
  match o with
  | none => isFalse fun h => h
  | some n => if h : n = 0 then isFalse (fun hq => hq h) else isTrue h

/-- The inputs read by `InvestmentMetrics.calculate_metrics`
(models.py lines 112-204): the owning property's `current_price`,
`estimated_rent` and `estimated_value`, plus the two external estimates.
`ai_roi` is the result of `_get_ai_valuation_roi` (the latest successful
valuation's five-year ROI divided by 5, or `None`); `ai_profit` is the result
of `_get_ai_predicted_profit`.  Both helpers call external services and
swallow every exception into `None`, so they enter the calculator as opaque
optional numbers. -/
structure MetricsInput where
  current_price : Option ℚ
  estimated_rent : Option ℚ
  estimated_value : Option ℚ
  ai_roi : Option ℚ
  ai_profit : Option ℚ
deriving Repr

/-- The nullable metric fields of an `InvestmentMetrics` row that
`calculate_metrics` writes.  `price_to_rent` embeds the source column
`price_to_rent_ratio`. -/
structure MetricsOutput where
  gross_rental_yield : Option ℚ
  net_operating_income : Option ℚ
  cap_rate : Option ℚ
  roi : Option ℚ
  estimated_profit : Option ℚ
  price_to_rent : Option ℚ
  risk_score : Option ℚ
  investment_score : Option ℚ
deriving DecidableEq, Repr

/-- A fresh `InvestmentMetrics` row: every metric column `NULL`. -/
def MetricsOutput.empty : MetricsOutput :=
  ⟨none, none, none, none, none, none, none, none⟩

/-- `annual_rent = estimated_rent * 12` (models.py line 117). -/
def annualRent (inp : MetricsInput) : ℚ := inp.estimated_rent.getD 0 * 12

/-- The property's `current_price` as a number (only read under the guard
that makes it truthy). -/
def priceVal (inp : MetricsInput) : ℚ := inp.current_price.getD 0

/-- `gross_rental_yield = annual_rent / current_price * 100`
(models.py lines 120-121). -/
def gryVal (inp : MetricsInput) : ℚ := annualRent inp / priceVal inp * 100

/-- `operating_expenses = annual_rent * Decimal('0.30')` (models.py line 124). -/
def opexVal (inp : MetricsInput) : ℚ := annualRent inp * (30 / 100)

/-- `net_operating_income = annual_rent - operating_expenses`
(models.py line 125). -/
def noiVal (inp : MetricsInput) : ℚ := annualRent inp - opexVal inp

/-- `cap_rate = net_operating_income / current_price * 100`
(models.py lines 128-129). -/
def capVal (inp : MetricsInput) : ℚ := noiVal inp / priceVal inp * 100

/-- `price_to_rent_ratio = current_price / annual_rent` (models.py line 132). -/
def ptrVal (inp : MetricsInput) : ℚ := priceVal inp / annualRent inp

/-- The `roi` field after models.py lines 134-143: the AI valuation ROI when
available (an `is not None` check), otherwise `NOI / price * 100` when the
just-assigned NOI and price are truthy, otherwise the field keeps its old
value. -/
def roiVal (inp : MetricsInput) (m : MetricsOutput) : Option ℚ :=
  match inp.ai_roi with
  | some r => some r
  | none =>
    if noiVal inp ≠ 0 ∧ truthy inp.current_price then
      some (noiVal inp / priceVal inp * 100)
    else m.roi

/-- The `estimated_profit` field after models.py lines 145-152: the AI
prediction when available (`is not None`), otherwise
`estimated_value - current_price` when both are truthy, otherwise the field
keeps its old value. -/
def eprofitVal (inp : MetricsInput) (m : MetricsOutput) : Option ℚ :=
  match inp.ai_profit with
  | some pr => some pr
  | none =>
    if truthy inp.estimated_value ∧ truthy inp.current_price then
      some (inp.estimated_value.getD 0 - priceVal inp)
    else m.estimated_profit

/-- The `risk_score` field after models.py lines 154-157:
`min(10, max(1, price_to_rent_ratio / 10))` when the just-assigned ratio is
truthy. -/
def riskVal (inp : MetricsInput) (m : MetricsOutput) : Option ℚ :=
  if ptrVal inp ≠ 0 then some (min 10 (max 1 (ptrVal inp / 10))) else m.risk_score

/-- `min(100, max(0, x))`, the clamp used by the score components. -/
def clamp100 (x : ℚ) : ℚ := min 100 (max 0 x)

/-- Cap-rate component (models.py lines 162-166): present when the
just-assigned `cap_rate` is truthy; `min(100, max(0, cap_rate*10)) * 0.4`. -/
def compCapRate (inp : MetricsInput) : Option ℚ :=
  if capVal inp ≠ 0 then some (clamp100 (capVal inp * 10) * (4 / 10)) else none

/-- Cash-flow component (models.py lines 168-174): present when NOI and price
are truthy; `min(100, max(0, (NOI/12)/100)) * 0.25`. -/
def compCashFlow (inp : MetricsInput) : Option ℚ :=
  if noiVal inp ≠ 0 ∧ truthy inp.current_price then
    some (clamp100 (noiVal inp / 12 / 100) * (25 / 100))
  else none

/-- Appreciation component (models.py lines 176-182): present when the
`estimated_profit` field and price are truthy;
`min(100, max(0, profit/price*100*2)) * 0.2`. -/
def compAppreciation (inp : MetricsInput) (m : MetricsOutput) : Option ℚ :=
  if truthy (eprofitVal inp m) ∧ truthy inp.current_price then
    some (clamp100 ((eprofitVal inp m).getD 0 / priceVal inp * 100 * 2) * (20 / 100))
  else none

/-- Market-efficiency component (models.py lines 184-190): present when the
ratio is truthy; `min(100, max(0, 200 - ratio*10)) * 0.1`. -/
def compEfficiency (inp : MetricsInput) : Option ℚ :=
  if ptrVal inp ≠ 0 then some (clamp100 (200 - ptrVal inp * 10) * (10 / 100)) else none

/-- Risk-adjustment component (models.py lines 192-196): present when the
`risk_score` field is truthy; `(10 - risk_score) * 10 * 0.05`, unclamped. -/
def compRisk (inp : MetricsInput) (m : MetricsOutput) : Option ℚ :=
  if truthy (riskVal inp m) then
    some ((10 - (riskVal inp m).getD 0) * 10 * (5 / 100))
  else none

/-- The values of `score_components` (models.py line 160): the present
components in declaration order. -/
def scoreComponents (inp : MetricsInput) (m : MetricsOutput) : List ℚ :=
  [compCapRate inp, compCashFlow inp, compAppreciation inp m,
    compEfficiency inp, compRisk inp m].filterMap id

/-- `investment_score` (models.py lines 198-202): the sum of the present
components, `0` when none is present. -/
def scoreVal (inp : MetricsInput) (m : MetricsOutput) : ℚ :=
  if scoreComponents inp m = [] then 0 else (scoreComponents inp m).sum

/-- `InvestmentMetrics.calculate_metrics` (models.py lines 112-204): a no-op
when `current_price` or `estimated_rent` is falsy, otherwise every metric
field is recomputed as above. -/
def InvestmentMetrics.calculate_metrics (inp : MetricsInput) (m : MetricsOutput) :
    MetricsOutput :=
  if ¬(truthy inp.current_price ∧ truthy inp.estimated_rent) then m
  else
    { gross_rental_yield := some (gryVal inp)
      net_operating_income := some (noiVal inp)
      cap_rate := some (capVal inp)
      roi := roiVal inp m
      estimated_profit := eprofitVal inp m
      price_to_rent := some (ptrVal inp)
      risk_score := riskVal inp m
      investment_score := some (scoreVal inp m) }

/-- `round(x, 2)` to the cent; the spec prescribes half-up, which is
Mathlib's `round`. -/
def roundCent (q : ℚ) : ℚ := ((round (q * 100) : ℤ) : ℚ) / 100

/-- `UserOwnedProperty.remaining_loan_balance` (models.py lines 595-628).
The guard is Python's `all([loan_amount, interest_rate, loan_term_years])`,
which is falsy — returning `None` — when any of the three is `NULL` *or
stored as zero*.  `monthsElapsedRaw` models the whole-month difference
between today and the purchase date before the clamp on line 618.
The `monthly_rate == 0` straight-line branch of line 609 is consequently
unreachable (a truthy `interest_rate` cannot make the rate zero), and on
that unreachable path the closing formula would divide by zero. -/
def UserOwnedProperty.remaining_loan_balance
    (loan_amount interest_rate : Option ℚ) (loan_term_years : Option ℕ)
    (monthsElapsedRaw : ℤ) : Option ℚ :=
  if ¬(truthy loan_amount ∧ truthy interest_rate ∧ truthyNat loan_term_years) then
    none
  else
    let la := loan_amount.getD 0
    let monthly_rate := interest_rate.getD 0 / 100 / 12
    let total_payments := (loan_term_years.getD 0) * 12
    let monthly_payment :=
      if monthly_rate = 0 then la / (total_payments : ℚ)
      else la * (monthly_rate * (1 + monthly_rate) ^ total_payments) /
        ((1 + monthly_rate) ^ total_payments - 1)
    let months_elapsed := max 0 (min monthsElapsedRaw (total_payments : ℤ))
    if (total_payments : ℤ) ≤ months_elapsed then some 0
    else
      let rp := total_payments - months_elapsed.toNat
      some (roundCent (monthly_payment * ((1 + monthly_rate) ^ rp - 1) /
        (monthly_rate * (1 + monthly_rate) ^ rp)))

/-- A `UserOwnedProperty` row, restricted to the fields the portfolio
aggregator reads.  `months_since_purchase` models the date arithmetic of
`remaining_loan_balance`; `property_type` and `city` are the resolved
display properties (empty string models a blank). -/
structure OwnedProperty where
  purchase_price : ℚ
  current_estimated_value : Option ℚ
  down_payment : Option ℚ
  loan_amount : Option ℚ
  interest_rate : Option ℚ
  loan_term_years : Option ℕ
  months_since_purchase : ℤ
  property_type : String
  city : String
deriving Repr

/-- `UserOwnedProperty.current_equity` (models.py lines 583-593): `None` when
`current_estimated_value` is falsy, otherwise the value minus the remaining
loan balance (a `None` balance counts as zero). -/
def OwnedProperty.current_equity (p : OwnedProperty) : Option ℚ :=
  if ¬ truthy p.current_estimated_value then none
  else
    some (p.current_estimated_value.getD 0 -
      (UserOwnedProperty.remaining_loan_balance p.loan_amount p.interest_rate
        p.loan_term_years p.months_since_purchase).getD 0)

/-- `current_value = prop.current_estimated_value or prop.purchase_price`
(models.py line 750). -/
def OwnedProperty.current_value (p : OwnedProperty) : ℚ :=
  if truthy p.current_estimated_value then p.current_estimated_value.getD 0
  else p.purchase_price

/-- A `RentalTransaction` row as the aggregator sees it: its type, amount and
whether its date falls in the trailing-365-day window. -/
structure Txn where
  is_income : Bool
  amount : ℚ
  within_year : Bool
deriving DecidableEq, Repr

/-- A `PortfolioMetrics` row.  Every column has database default `0`. -/
structure PMRecord where
  total_properties : ℕ
  total_investment : ℚ
  total_equity : ℚ
  total_monthly_income : ℚ
  total_monthly_expenses : ℚ
  portfolio_value : ℚ
  total_appreciation : ℚ
  appreciation_percentage : ℚ
  monthly_cash_flow : ℚ
  annual_cash_flow : ℚ
  cash_on_cash_return : ℚ
  total_return_percentage : ℚ
  portfolio_cap_rate : ℚ
  diversification_score : ℚ
deriving DecidableEq, Repr

/-- A freshly created `PortfolioMetrics` row: all defaults are `0`. -/
def PMRecord.zero : PMRecord := ⟨0, 0, 0, 0, 0, 0, 0, 0, 0, 0, 0, 0, 0, 0⟩

/-- `PortfolioMetrics.calculate_metrics` (models.py lines 736-835) applied to
the user's `UserOwnedProperty` rows, their transactions, and the existing
record `m` (the views obtain it with `get_or_create`, so `m` carries the
previous values).  Each `if denominator > 0` guard of the source skips the
assignment when false, leaving the previous field value in place. -/
def PortfolioMetrics.calculate_metrics (props : List OwnedProperty)
    (txns : List Txn) (m : PMRecord) : PMRecord :=
  let total_investment := (props.map OwnedProperty.purchase_price).sum
  let portfolio_value := (props.map OwnedProperty.current_value).sum
  let total_equity := (props.map (fun p =>
    if truthy p.current_equity then p.current_equity.getD 0 else p.current_value)).sum
  let recent_income :=
    ((txns.filter (fun t => t.is_income && t.within_year)).map Txn.amount).sum
  let recent_expenses :=
    ((txns.filter (fun t => !t.is_income && t.within_year)).map Txn.amount).sum
  let annual_cash_flow := recent_income - recent_expenses
  let sum_down := ((props.filter (fun p => truthy p.down_payment)).map
    (fun p => p.down_payment.getD 0)).sum
  let total_down_payments := if sum_down = 0 then total_investment else sum_down
  let total_appreciation :=
    if 0 < total_investment then portfolio_value - total_investment
    else m.total_appreciation
  let types := ((props.map OwnedProperty.property_type).filter (fun t => t ≠ "")).dedup
  let cities := ((props.map OwnedProperty.city).filter (fun c => c ≠ "")).dedup
  { total_properties := props.length
    total_investment := total_investment
    total_equity := total_equity
    total_monthly_income := recent_income / 12
    total_monthly_expenses := recent_expenses / 12
    portfolio_value := portfolio_value
    total_appreciation := total_appreciation
    appreciation_percentage :=
      if 0 < total_investment then total_appreciation / total_investment * 100
      else m.appreciation_percentage
    monthly_cash_flow := annual_cash_flow / 12
    annual_cash_flow := annual_cash_flow
    cash_on_cash_return :=
      if 0 < total_down_payments then annual_cash_flow / total_down_payments * 100
      else m.cash_on_cash_return
    total_return_percentage :=
      if 0 < total_investment then
        (total_appreciation + annual_cash_flow) / total_investment * 100
      else m.total_return_percentage
    portfolio_cap_rate :=
      if 0 < portfolio_value then annual_cash_flow / portfolio_value * 100
      else m.portfolio_cap_rate
    diversification_score := ((min types.length 5 + min cities.length 5 : ℕ) : ℚ) }

theorem findDeal_eq_some {s : PipelineState} {u did : Nat} {dm : Deal}
    (h : findDeal s u did = some dm) : dm ∈ s ∧ dm.id = did ∧ dm.owner = u := by
  refine ⟨List.mem_of_find?_eq_some h, ?_⟩
  have := List.find?_some h
  simpa using this

theorem le_maxPosition {s : PipelineState} {st : Nat} {d : Deal}
    (hd : d ∈ s) (hst : d.stage = st) :
    ∃ m, maxPosition s st = some m ∧ d.pos ≤ m := by
  induction s with
  | nil => cases hd
  | cons hd0 tl ih =>
    rcases List.mem_cons.1 hd with rfl | hmem
    · simp only [maxPosition, hst, if_pos]
      cases htl : maxPosition tl st with
      | none => exact ⟨d.pos, rfl, le_refl _⟩
      | some m => exact ⟨max d.pos m, rfl, le_max_left _ _⟩
    · obtain ⟨m, hm, hle⟩ := ih hmem
      by_cases hs : hd0.stage = st
      · simp only [maxPosition, hs, if_pos, hm]
        exact ⟨max hd0.pos m, rfl, le_trans hle (le_max_right _ _)⟩
      · simp only [maxPosition, hs, if_neg, hm]
        exact ⟨m, rfl, hle⟩

theorem maxPosition_attained {s : PipelineState} {st : Nat} :
    ∀ {m : Nat}, maxPosition s st = some m → ∃ d ∈ s, d.stage = st ∧ d.pos = m := by
  induction s with
  | nil => intro m h; cases h
  | cons hd0 tl ih =>
    intro m h
    by_cases hs : hd0.stage = st
    · cases htl : maxPosition tl st with
      | none =>
        simp only [maxPosition, hs, if_pos, htl, Option.some.injEq] at h
        exact ⟨hd0, List.mem_cons_self _ _, hs, h⟩
      | some m' =>
        simp only [maxPosition, hs, if_pos, htl, Option.some.injEq] at h
        rcases max_choice hd0.pos m' with hc | hc
        · exact ⟨hd0, List.mem_cons_self _ _, hs, by omega⟩
        · obtain ⟨d, hdm, hds, hdp⟩ := ih htl
          exact ⟨d, List.mem_cons_of_mem _ hdm, hds, by omega⟩
    · simp only [maxPosition, hs, if_neg] at h
      obtain ⟨d, hdm, hds, hdp⟩ := ih h
      exact ⟨d, List.mem_cons_of_mem _ hdm, hds, hdp⟩

theorem maxPosition_eq_none {s : PipelineState} {st : Nat}
    (h : ∀ d ∈ s, d.stage ≠ st) : maxPosition s st = none := by
  induction s with
  | nil => rfl
  | cons hd0 tl ih =>
    have hs : hd0.stage ≠ st := h hd0 (List.mem_cons_self _ _)
    simp only [maxPosition, hs, if_neg]
    exact ih fun d hd => h d (List.mem_cons_of_mem _ hd)

theorem id_lt_nextId {s : PipelineState} {d : Deal} (hd : d ∈ s) :
    d.id < nextId s := by
  have : d.id ≤ (s.map Deal.id).foldr max 0 := by
    induction s with
    | nil => cases hd
    | cons hd0 tl ih =>
      rcases List.mem_cons.1 hd with rfl | hmem
      · exact le_max_left _ _
      · exact le_trans (ih hmem) (le_max_right _ _)
  unfold nextId; omega

theorem eq_of_mem_of_id {s : PipelineState} (hids : idsOk s) {d1 d2 : Deal}
    (h1 : d1 ∈ s) (h2 : d2 ∈ s) (h : d1.id = d2.id) : d1 = d2 :=
  List.inj_on_of_nodup_map hids h1 h2 h

theorem crossShift_id (u did os op ts tp : Nat) (d : Deal) :
    (crossShift u did os op ts tp d).id = d.id := by
  unfold crossShift; split_ifs <;> rfl

theorem crossShift_owner (u did os op ts tp : Nat) (d : Deal) :
    (crossShift u did os op ts tp d).owner = d.owner := by
  unfold crossShift; split_ifs <;> rfl

theorem downShift_id (u did op tp stg : Nat) (d : Deal) :
    (downShift u did op tp stg d).id = d.id := by
  unfold downShift; split_ifs <;> rfl

theorem downShift_owner (u did op tp stg : Nat) (d : Deal) :
    (downShift u did op tp stg d).owner = d.owner := by
  unfold downShift; split_ifs <;> rfl

theorem downShift_stage (u did op tp stg : Nat) (d : Deal) :
    (downShift u did op tp stg d).stage = d.stage := by
  unfold downShift; split_ifs <;> rfl

theorem upShift_id (u did op tp stg : Nat) (d : Deal) :
    (upShift u did op tp stg d).id = d.id := by
  unfold upShift; split_ifs <;> rfl

theorem upShift_owner (u did op tp stg : Nat) (d : Deal) :
    (upShift u did op tp stg d).owner = d.owner := by
  unfold upShift; split_ifs <;> rfl

theorem upShift_stage (u did op tp stg : Nat) (d : Deal) :
    (upShift u did op tp stg d).stage = d.stage := by
  unfold upShift; split_ifs <;> rfl

theorem idsOk_map {s : PipelineState} {f : Deal → Deal}
    (hf : ∀ d, (f d).id = d.id) (h : idsOk s) : idsOk (s.map f) := by
  unfold idsOk at *
  rw [List.map_map]
  have he : (Deal.id ∘ f) = Deal.id := funext fun d => hf d
  rw [he]; exact h

theorem posOk_crossShift {s : PipelineState} {u did ts tp : Nat} {dm : Deal}
    (hpos : posOk s)
    (hdm : dm ∈ s) (hdid : dm.id = did) (howner : dm.owner = u)
    (hne : dm.stage ≠ ts) :
    posOk (s.map (crossShift u did dm.stage dm.pos ts tp)) := by
  intro d1' h1 d2' h2 ho hs hp
  rw [List.mem_map] at h1 h2
  obtain ⟨d1, hd1, rfl⟩ := h1
  obtain ⟨d2, hd2, rfl⟩ := h2
  rw [crossShift_id, crossShift_id]
  rw [crossShift_owner, crossShift_owner] at ho
  unfold crossShift at hs hp
  split_ifs at hs hp
  all_goals try dsimp only at hs hp
  all_goals
    first
    | omega
    | exact hpos d1 hd1 d2 hd2 (by omega) (by omega) (by omega)
    | (have key := hpos d2 hd2 dm hdm (by omega) (by omega) (by omega); omega)
    | (have key := hpos d1 hd1 dm hdm (by omega) (by omega) (by omega); omega)

theorem posOk_downShift {s : PipelineState} {u did tp stg : Nat} {dm : Deal}
    (hids : idsOk s) (hpos : posOk s)
    (hdm : dm ∈ s) (hdid : dm.id = did) (howner : dm.owner = u)
    (hstg : dm.stage = stg) (hlt : dm.pos < tp) :
    posOk (s.map (downShift u did dm.pos tp stg)) := by
  intro d1' h1 d2' h2 ho hs hp
  rw [List.mem_map] at h1 h2
  obtain ⟨d1, hd1, rfl⟩ := h1
  obtain ⟨d2, hd2, rfl⟩ := h2
  rw [downShift_id, downShift_id]
  rw [downShift_owner, downShift_owner] at ho
  rw [downShift_stage, downShift_stage] at hs
  unfold downShift at hp
  split_ifs at hp
  all_goals try dsimp only at hp
  all_goals
    first
    | omega
    | exact hpos d1 hd1 d2 hd2 (by omega) (by omega) (by omega)
    | (have key := hpos d2 hd2 dm hdm (by omega) (by omega) (by omega); omega)
    | (have key := hpos d1 hd1 dm hdm (by omega) (by omega) (by omega); omega)
    | (have e := eq_of_mem_of_id hids hd1 hdm (by omega)
       have estage : d1.stage = dm.stage := by rw [e]
       have key := hpos d2 hd2 dm hdm (by omega) (by omega) (by omega); omega)
    | (have e := eq_of_mem_of_id hids hd2 hdm (by omega)
       have estage : d2.stage = dm.stage := by rw [e]
       have key := hpos d1 hd1 dm hdm (by omega) (by omega) (by omega); omega)

theorem posOk_upShift {s : PipelineState} {u did tp stg : Nat} {dm : Deal}
    (hids : idsOk s) (hpos : posOk s)
    (hdm : dm ∈ s) (hdid : dm.id = did) (howner : dm.owner = u)
    (hstg : dm.stage = stg) (hgt : tp < dm.pos) :
    posOk (s.map (upShift u did dm.pos tp stg)) := by
  intro d1' h1 d2' h2 ho hs hp
  rw [List.mem_map] at h1 h2
  obtain ⟨d1, hd1, rfl⟩ := h1
  obtain ⟨d2, hd2, rfl⟩ := h2
  rw [upShift_id, upShift_id]
  rw [upShift_owner, upShift_owner] at ho
  rw [upShift_stage, upShift_stage] at hs
  unfold upShift at hp
  split_ifs at hp
  all_goals try dsimp only at hp
  all_goals
    first
    | omega
    | exact hpos d1 hd1 d2 hd2 (by omega) (by omega) (by omega)
    | (have key := hpos d2 hd2 dm hdm (by omega) (by omega) (by omega); omega)
    | (have key := hpos d1 hd1 dm hdm (by omega) (by omega) (by omega); omega)
    | (have e := eq_of_mem_of_id hids hd1 hdm (by omega)
       have estage : d1.stage = dm.stage := by rw [e]
       have key := hpos d2 hd2 dm hdm (by omega) (by omega) (by omega); omega)
    | (have e := eq_of_mem_of_id hids hd2 hdm (by omega)
       have estage : d2.stage = dm.stage := by rw [e]
       have key := hpos d1 hd1 dm hdm (by omega) (by omega) (by omega); omega)

theorem pipelineInv_create {s : PipelineState} {u st nid : Nat}
    (h : pipelineInv s) (hfresh : ∀ d ∈ s, d.id < nid) :
    pipelineInv (createDeal s u st nid) := by
  obtain ⟨hids, hpos⟩ := h
  constructor
  · unfold idsOk createDeal at *
    rw [List.map_append, List.nodup_append]
    refine ⟨hids, List.nodup_singleton _, ?_⟩
    intro a ha hb
    rw [List.mem_map] at ha
    obtain ⟨d, hd, rfl⟩ := ha
    simp only [List.map_cons, List.map_nil, List.mem_singleton] at hb
    exact absurd hb (Nat.ne_of_lt (hfresh d hd))
  · intro d1 h1 d2 h2 ho hs hp
    unfold createDeal at h1 h2
    rw [List.mem_append, List.mem_singleton] at h1 h2
    rcases h1 with h1 | rfl <;> rcases h2 with h2 | rfl
    · exact hpos d1 h1 d2 h2 ho hs hp
    · dsimp only at hs hp
      obtain ⟨m, hm, hle⟩ := le_maxPosition h1 hs
      rw [hm] at hp
      dsimp only [Option.getD] at hp
      omega
    · dsimp only at hs hp
      obtain ⟨m, hm, hle⟩ := le_maxPosition h2 hs.symm
      rw [hm] at hp
      dsimp only [Option.getD] at hp
      omega
    · rfl

theorem pipelineInv_delete {s : PipelineState} {u did : Nat}
    (h : pipelineInv s) : pipelineInv (deleteDeal s u did) := by
  obtain ⟨hids, hpos⟩ := h
  unfold deleteDeal
  cases findDeal s u did with
  | none => exact ⟨hids, hpos⟩
  | some dm =>
    constructor
    · exact List.Nodup.sublist (List.Sublist.map _ (List.filter_sublist s)) hids
    · intro d1 h1 d2 h2
      rw [List.mem_filter] at h1 h2
      exact hpos d1 h1.1 d2 h2.1

theorem pipelineInv_move {s s' : PipelineState} {u did ts tp : Nat}
    (h : pipelineInv s) (hmv : moveDeal s u did ts tp = some s') :
    pipelineInv s' := by
  obtain ⟨hids, hpos⟩ := h
  unfold moveDeal at hmv
  cases hfd : findDeal s u did with
  | none => rw [hfd] at hmv; cases hmv
  | some dm =>
    rw [hfd] at hmv
    dsimp only at hmv
    obtain ⟨hdm, hdid, howner⟩ := findDeal_eq_some hfd
    by_cases h1 : dm.stage ≠ ts
    · rw [if_pos h1] at hmv
      injection hmv with hmv
      subst hmv
      exact ⟨idsOk_map (crossShift_id u did dm.stage dm.pos ts tp) hids,
        posOk_crossShift hpos hdm hdid howner h1⟩
    · rw [if_neg h1] at hmv
      push_neg at h1
      by_cases h2 : dm.pos ≠ tp
      · rw [if_pos h2] at hmv
        by_cases h3 : dm.pos < tp
        · rw [if_pos h3] at hmv
          injection hmv with hmv
          subst hmv
          exact ⟨idsOk_map (downShift_id u did dm.pos tp ts) hids,
            posOk_downShift hids hpos hdm hdid howner h1 h3⟩
        · rw [if_neg h3] at hmv
          injection hmv with hmv
          subst hmv
          exact ⟨idsOk_map (upShift_id u did dm.pos tp ts) hids,
            posOk_upShift hids hpos hdm hdid howner h1 (by omega)⟩
      · rw [if_neg h2] at hmv
        injection hmv with hmv
        subst hmv
        exact ⟨hids, hpos⟩

theorem pipelineInv_applyOp {s : PipelineState} {u : Nat} (h : pipelineInv s)
    (op : Op) : pipelineInv (applyOp u s op) := by
  cases op with
  | create st => exact pipelineInv_create h fun d hd => id_lt_nextId hd
  | move did ts tp =>
    simp only [applyOp]
    cases hmv : moveDeal s u did ts tp with
    | none => exact h
    | some s' => exact pipelineInv_move h hmv
  | del did => exact pipelineInv_delete h

theorem pipelineInv_applyOps {u : Nat} (ops : List Op) {s : PipelineState}
    (h : pipelineInv s) : pipelineInv (applyOps u s ops) := by
  induction ops generalizing s with
  | nil => exact h
  | cons op rest ih => exact ih (pipelineInv_applyOp h op)

theorem nodup_positions_of_inv {s : PipelineState} (h : pipelineInv s)
    (u st : Nat) : (userStagePositions s u st).Nodup := by
  obtain ⟨hids, hpos⟩ := h
  unfold userStagePositions
  have hnds : s.Nodup := List.Nodup.of_map _ hids
  have hndf : (s.filter (fun d => d.owner = u ∧ d.stage = st)).Nodup :=
    List.Nodup.filter _ hnds
  apply List.Nodup.map_on _ hndf
  intro x hx y hy hxy
  rw [List.mem_filter] at hx hy
  obtain ⟨hxs, hxp⟩ := hx
  obtain ⟨hys, hyp⟩ := hy
  simp only [decide_eq_true_eq] at hxp hyp
  have hid : x.id = y.id :=
    hpos x hxs y hys (by rw [hxp.1, hyp.1]) (by rw [hxp.2, hyp.2]) hxy
  exact eq_of_mem_of_id hids hxs hys hid

theorem pipelineInv_nil : pipelineInv [] := by
  constructor
  · unfold idsOk
    exact List.nodup_nil
  · intro d1 h1
    exact absurd h1 (List.not_mem_nil _)

/-- **C1 (counterexample)**: the claimed invariant fails on the very first
operation.  A single create into an empty stage (stage 3, user 0) assigns
position `(None or 0) + 1 = 1`, so the multiset of positions is `{1}`,
not `{0}`: after this one-operation sequence the stage is not contiguous. -/
theorem claim_C1_counterexample :
    ¬ contiguousStage (applyOps 0 [] [Op.create 3]) 0 3 := by decide

/-- **C1 (amended)**: for every sequence of create/move/delete operations by
a single user starting from an empty deal table, after each operation the
positions of that user's deals within each stage are pairwise distinct (no
duplicates); they are not in general contiguous or zero-based. -/
theorem claim_C1_positions_distinct (u : Nat) (ops : List Op) (st : Nat) :
    (userStagePositions (applyOps u [] ops) u st).Nodup :=
  nodup_positions_of_inv (pipelineInv_applyOps ops pipelineInv_nil) u st

/-- **C2**: on a table whose deals all belong to the acting user, a
cross-stage `move_deal` with an in-range target position over two
contiguous stages (a) decrements the position of every source-stage deal
above the old position, (b) increments the position of every target-stage
deal at or above the target position, (c) re-homes the moved deal to the
target stage and position, and leaves every other deal unchanged. -/
theorem claim_C2_cross_stage_move (s : PipelineState) (u did src tgt p : Nat)
    (dm : Deal)
    (hall : ∀ d ∈ s, d.owner = u)
    (hfind : findDeal s u did = some dm)
    (hsrc : dm.stage = src) (hne : src ≠ tgt)
    (_hcsrc : contiguousStage s u src) (_hctgt : contiguousStage s u tgt)
    (_hp : p ≤ (userStagePositions s u tgt).length) :
    ∃ s', moveDeal s u did tgt p = some s' ∧
      ({ dm with stage := tgt, pos := p } : Deal) ∈ s' ∧
      ∀ d ∈ s, d.id ≠ did →
        (d.stage = src → dm.pos < d.pos →
          ({ d with pos := d.pos - 1 } : Deal) ∈ s') ∧
        (d.stage = tgt → p ≤ d.pos →
          ({ d with pos := d.pos + 1 } : Deal) ∈ s') ∧
        (¬(d.stage = src ∧ dm.pos < d.pos) → ¬(d.stage = tgt ∧ p ≤ d.pos) →
          d ∈ s') := by
  obtain ⟨hdm, hdid, howner⟩ := findDeal_eq_some hfind
  have hne' : dm.stage ≠ tgt := by rw [hsrc]; exact hne
  refine ⟨s.map (crossShift u did dm.stage dm.pos tgt p), ?_, ?_, ?_⟩
  · unfold moveDeal
    rw [hfind]
    dsimp only
    rw [if_pos hne']
  · have : crossShift u did dm.stage dm.pos tgt p dm =
        { dm with stage := tgt, pos := p } := by
      unfold crossShift
      rw [if_pos ⟨hdid, howner⟩]
    rw [← this]
    exact List.mem_map_of_mem _ hdm
  · intro d hd hne2
    have hdo : d.owner = u := hall d hd
    refine ⟨?_, ?_, ?_⟩
    · intro hst hlt
      have : crossShift u did dm.stage dm.pos tgt p d =
          { d with pos := d.pos - 1 } := by
        unfold crossShift
        rw [if_neg (fun hc => hne2 hc.1), if_pos ⟨hdo, by rw [hst, hsrc], hlt⟩]
      rw [← this]
      exact List.mem_map_of_mem _ hd
    · intro hst hle
      have : crossShift u did dm.stage dm.pos tgt p d =
          { d with pos := d.pos + 1 } := by
        unfold crossShift
        rw [if_neg (fun hc => hne2 hc.1),
          if_neg (fun hc => hne (by rw [← hsrc, ← hc.2.1, hst])), if_pos ⟨hdo, hst, hle⟩]
      rw [← this]
      exact List.mem_map_of_mem _ hd
    · intro hnsrc hntgt
      have : crossShift u did dm.stage dm.pos tgt p d = d := by
        unfold crossShift
        rw [if_neg (fun hc => hne2 hc.1),
          if_neg (fun hc => hnsrc ⟨by rw [← hsrc]; exact hc.2.1, hc.2.2⟩),
          if_neg (fun hc => hntgt ⟨hc.2.1, hc.2.2⟩)]
      rw [← this]
      exact List.mem_map_of_mem _ hd

/-- **C2 (witness)**: the spec's worked example.  Stage 0 holds deals
1,2,3 at positions 0,1,2 and stage 1 holds deals 4,5 at positions 0,1;
moving deal 2 (position 1 of stage 0) to stage 1 position 1 yields
stage 0 = {deal 1 at 0, deal 3 at 1} and stage 1 = {deal 4 at 0, deal 2
at 1, deal 5 at 2}. -/
theorem claim_C2_witness :
    ∃ s', moveDeal [⟨1, 0, 0, 0⟩, ⟨2, 0, 0, 1⟩, ⟨3, 0, 0, 2⟩, ⟨4, 0, 1, 0⟩,
        ⟨5, 0, 1, 1⟩] 0 2 1 1 = some s' ∧
      (⟨2, 0, 1, 1⟩ : Deal) ∈ s' ∧ (⟨1, 0, 0, 0⟩ : Deal) ∈ s' ∧
      (⟨3, 0, 0, 1⟩ : Deal) ∈ s' ∧ (⟨4, 0, 1, 0⟩ : Deal) ∈ s' ∧
      (⟨5, 0, 1, 2⟩ : Deal) ∈ s' := by
  obtain ⟨s', hmv, hmoved, hrest⟩ :=
    claim_C2_cross_stage_move
      [⟨1, 0, 0, 0⟩, ⟨2, 0, 0, 1⟩, ⟨3, 0, 0, 2⟩, ⟨4, 0, 1, 0⟩, ⟨5, 0, 1, 1⟩]
      0 2 0 1 1 ⟨2, 0, 0, 1⟩ (by decide) (by decide) rfl (by decide)
      (by decide) (by decide) (by decide)
  refine ⟨s', hmv, hmoved, ?_, ?_, ?_, ?_⟩
  · exact (hrest ⟨1, 0, 0, 0⟩ (by decide) (by decide)).2.2 (by decide) (by decide)
  · exact (hrest ⟨3, 0, 0, 2⟩ (by decide) (by decide)).1 (by decide) (by decide)
  · exact (hrest ⟨4, 0, 1, 0⟩ (by decide) (by decide)).2.2 (by decide) (by decide)
  · exact (hrest ⟨5, 0, 1, 1⟩ (by decide) (by decide)).2.1 (by decide) (by decide)

/-- **C3 (counterexample)**: creating the first deal of stage 5 assigns
position `1`, not the claimed `0`; and when user 0 already holds a deal at
position 4 of stage 5, a create by user 1 — who owns nothing there —
receives position `5`, not `0`: the consulted maximum ranges over other
users' deals. -/
theorem claim_C3_counterexample :
    createDeal [] 0 5 1 = [⟨1, 0, 5, 1⟩] ∧
    createDeal [⟨1, 0, 5, 4⟩] 1 5 2 = [⟨1, 0, 5, 4⟩, ⟨2, 1, 5, 5⟩] ∧
    (1 : Nat) ≠ 0 ∧ (5 : Nat) ≠ 0 := by decide

/-- **C3 (amended)**: a created deal is appended with a position strictly
greater than the position of every deal of the target stage regardless of
owner; when the stage is globally empty the position is `1`, and otherwise
it is one more than the position of some (maximal) existing deal of the
stage — possibly another user's. -/
theorem claim_C3_create_position (s : PipelineState) (u st nid : Nat) :
    ∃ p, createDeal s u st nid = s ++ [⟨nid, u, st, p⟩] ∧
      (∀ d ∈ s, d.stage = st → d.pos < p) ∧
      ((∀ d ∈ s, d.stage ≠ st) → p = 1) ∧
      (∀ d ∈ s, d.stage = st → ∃ dmax ∈ s, dmax.stage = st ∧ p = dmax.pos + 1) := by
  refine ⟨(maxPosition s st).getD 0 + 1, rfl, ?_, ?_, ?_⟩
  · intro d hd hst
    obtain ⟨m, hm, hle⟩ := le_maxPosition hd hst
    rw [hm]
    dsimp only [Option.getD]
    omega
  · intro hnone
    rw [maxPosition_eq_none hnone]
    rfl
  · intro d hd hst
    obtain ⟨m, hm, _⟩ := le_maxPosition hd hst
    obtain ⟨dmax, hdmax, hdst, hdpos⟩ := maxPosition_attained hm
    refine ⟨dmax, hdmax, hdst, ?_⟩
    rw [hm]
    dsimp only [Option.getD]
    omega

/-- **C4 (counterexample)**: deleting the position-0 deal of a contiguous
three-deal stage leaves the survivors at positions 1 and 2 — no
decrement happens, and the stage is no longer contiguous from 0. -/
theorem claim_C4_counterexample :
    deleteDeal [⟨1, 0, 0, 0⟩, ⟨2, 0, 0, 1⟩, ⟨3, 0, 0, 2⟩] 0 1 =
      [⟨2, 0, 0, 1⟩, ⟨3, 0, 0, 2⟩] ∧
    ¬ contiguousStage (deleteDeal [⟨1, 0, 0, 0⟩, ⟨2, 0, 0, 1⟩, ⟨3, 0, 0, 2⟩] 0 1)
      0 0 := by decide

/-- **C4 (amended)**: deleting a deal removes exactly the matching row; every
other deal keeps its stage and position unchanged, so no compaction occurs
and a gap remains whenever the deleted deal was not at the top position. -/
theorem claim_C4_delete_no_compaction (s : PipelineState) (u did : Nat) :
    ∀ d : Deal, d ∈ deleteDeal s u did ↔ (d ∈ s ∧ ¬(d.id = did ∧ d.owner = u)) := by
  intro d
  unfold deleteDeal
  cases hfd : findDeal s u did with
  | none =>
    have hnone := List.find?_eq_none.1 hfd d
    constructor
    · intro hd
      refine ⟨hd, ?_⟩
      have := hnone hd
      simpa using this
    · exact fun h => h.1
  | some dm =>
    rw [List.mem_filter]
    simp only [decide_eq_true_eq]

/-- **C10**: moving a deal to its current stage at its current position
takes neither `if` branch of `move_deal`: the whole table — every user's
deals included — is returned unchanged, and the endpoint still answers
with the success response. -/
theorem claim_C10_self_move_noop (s : PipelineState) (u did : Nat) (dm : Deal)
    (hfind : findDeal s u did = some dm) :
    moveDeal s u did dm.stage dm.pos = some s := by
  unfold moveDeal
  rw [hfind]
  dsimp only
  rw [if_neg (fun h => h rfl), if_neg (fun h => h rfl)]

/-- **C10 (witness)**: a concrete two-deal table is returned verbatim when
deal 2 is "moved" to its own stage 2, position 1. -/
theorem claim_C10_witness :
    moveDeal [⟨1, 0, 2, 0⟩, ⟨2, 0, 2, 1⟩] 0 2 2 1 =
      some [⟨1, 0, 2, 0⟩, ⟨2, 0, 2, 1⟩] :=
  claim_C10_self_move_noop _ 0 2 ⟨2, 0, 2, 1⟩ (by decide)

theorem truthy_getD_ne_zero {o : Option ℚ} (h : truthy o) : o.getD 0 ≠ 0 := by
  cases o with
  | none => exact absurd h fun hh => hh
  | some q => exact h

theorem clamp100_nonneg (x : ℚ) : 0 ≤ clamp100 x :=
  le_min (by norm_num) (le_max_left 0 x)

theorem clamp100_le_100 (x : ℚ) : clamp100 x ≤ 100 := min_le_left _ _

theorem clamp100_mono {x y : ℚ} (h : x ≤ y) : clamp100 x ≤ clamp100 y :=
  min_le_min (le_refl _) (max_le_max (le_refl _) h)

theorem compCapRate_getD_bounds (inp : MetricsInput) :
    0 ≤ (compCapRate inp).getD 0 ∧ (compCapRate inp).getD 0 ≤ 40 := by
  unfold compCapRate
  split_ifs with h
  · dsimp only [Option.getD]
    have h0 := clamp100_nonneg (capVal inp * 10)
    have h1 := clamp100_le_100 (capVal inp * 10)
    constructor <;> linarith
  · dsimp only [Option.getD]
    norm_num

theorem compCashFlow_getD_bounds (inp : MetricsInput) :
    0 ≤ (compCashFlow inp).getD 0 ∧ (compCashFlow inp).getD 0 ≤ 25 := by
  unfold compCashFlow
  split_ifs with h
  · dsimp only [Option.getD]
    have h0 := clamp100_nonneg (noiVal inp / 12 / 100)
    have h1 := clamp100_le_100 (noiVal inp / 12 / 100)
    constructor <;> linarith
  · dsimp only [Option.getD]
    norm_num

theorem compAppreciation_getD_bounds (inp : MetricsInput) (m : MetricsOutput) :
    0 ≤ (compAppreciation inp m).getD 0 ∧ (compAppreciation inp m).getD 0 ≤ 20 := by
  unfold compAppreciation
  split_ifs with h
  · rw [Option.getD_some]
    have h0 := clamp100_nonneg ((eprofitVal inp m).getD 0 / priceVal inp * 100 * 2)
    have h1 := clamp100_le_100 ((eprofitVal inp m).getD 0 / priceVal inp * 100 * 2)
    constructor <;> linarith
  · rw [Option.getD_none]
    norm_num

theorem compEfficiency_getD_bounds (inp : MetricsInput) :
    0 ≤ (compEfficiency inp).getD 0 ∧ (compEfficiency inp).getD 0 ≤ 10 := by
  unfold compEfficiency
  split_ifs with h
  · dsimp only [Option.getD]
    have h0 := clamp100_nonneg (200 - ptrVal inp * 10)
    have h1 := clamp100_le_100 (200 - ptrVal inp * 10)
    constructor <;> linarith
  · dsimp only [Option.getD]
    norm_num

theorem compRisk_getD_bounds (inp : MetricsInput) (m : MetricsOutput)
    (hptr : ptrVal inp ≠ 0) :
    0 ≤ (compRisk inp m).getD 0 ∧ (compRisk inp m).getD 0 ≤ 9 / 2 := by
  have hrv : riskVal inp m = some (min 10 (max 1 (ptrVal inp / 10))) := by
    unfold riskVal
    rw [if_pos hptr]
  have h1 : (1 : ℚ) ≤ min 10 (max 1 (ptrVal inp / 10)) :=
    le_min (by norm_num) (le_max_left _ _)
  have h10 : min 10 (max 1 (ptrVal inp / 10)) ≤ (10 : ℚ) := min_le_left _ _
  unfold compRisk
  rw [hrv, if_pos (show truthy (some (min 10 (max 1 (ptrVal inp / 10)))) from
    fun h0 => by rw [h0] at h1; linarith)]
  dsimp only [Option.getD]
  constructor <;> linarith

theorem sum_filterMap_id_five (a b c d e : Option ℚ) :
    ([a, b, c, d, e].filterMap id).sum =
      a.getD 0 + b.getD 0 + c.getD 0 + d.getD 0 + e.getD 0 := by
  rcases a with _ | x1 <;> rcases b with _ | x2 <;> rcases c with _ | x3 <;>
    rcases d with _ | x4 <;> rcases e with _ | x5 <;>
    simp [List.filterMap_cons] <;> ring

theorem scoreVal_bounds (inp : MetricsInput) (m : MetricsOutput)
    (hptr : ptrVal inp ≠ 0) :
    0 ≤ scoreVal inp m ∧ scoreVal inp m ≤ 100 := by
  obtain ⟨a0, a1⟩ := compCapRate_getD_bounds inp
  obtain ⟨b0, b1⟩ := compCashFlow_getD_bounds inp
  obtain ⟨c0, c1⟩ := compAppreciation_getD_bounds inp m
  obtain ⟨d0, d1⟩ := compEfficiency_getD_bounds inp
  obtain ⟨e0, e1⟩ := compRisk_getD_bounds inp m hptr
  unfold scoreVal
  split_ifs with hc
  · norm_num
  · unfold scoreComponents
    rw [sum_filterMap_id_five]
    constructor <;> linarith

/-- **C5**: for a zero interest rate the code never reaches its straight-line
branch: `all([loan_amount, interest_rate, loan_term_years])` is falsy on
`Decimal('0')`, so `remaining_loan_balance` answers "unknown" (`None`) for
every loan amount, term and elapsed time — never the numeric
`principal*(n-k)/n` balance the spec (and the code's own dead
`monthly_rate == 0` branch) prescribe. -/
theorem claim_C5_zero_rate_unknown (la : ℚ) (ty : ℕ) (k : ℤ) :
    UserOwnedProperty.remaining_loan_balance (some la) (some 0) (some ty) k =
      none := by
  unfold UserOwnedProperty.remaining_loan_balance
  rw [if_pos]
  intro h
  exact h.2.1 rfl

/-- **C6**: when price and rent are truthy and the estimated-profit field
comes out truthy (so that all five score components are present), the
composite `investment_score` is a number in `[0, 100]`. -/
theorem claim_C6_score_in_range (inp : MetricsInput) (m : MetricsOutput)
    (hp : truthy inp.current_price) (hr : truthy inp.estimated_rent)
    (_hprofit : truthy (eprofitVal inp m)) :
    ∃ sc, (InvestmentMetrics.calculate_metrics inp m).investment_score = some sc ∧
      0 ≤ sc ∧ sc ≤ 100 := by
  have hptr : ptrVal inp ≠ 0 := by
    unfold ptrVal annualRent priceVal
    exact div_ne_zero (truthy_getD_ne_zero hp)
      (mul_ne_zero (truthy_getD_ne_zero hr) (by norm_num))
  obtain ⟨hs0, hs1⟩ := scoreVal_bounds inp m hptr
  refine ⟨scoreVal inp m, ?_, hs0, hs1⟩
  unfold InvestmentMetrics.calculate_metrics
  rw [if_neg (fun hc => hc ⟨hp, hr⟩)]

/-- **C6 (witness)**: the spec's example property (price 200000, rent 2000)
with an AI profit prediction of 50000 has all five components present and a
score inside `[0, 100]`. -/
theorem claim_C6_witness :
    truthy (some (200000 : ℚ)) ∧ truthy (some (2000 : ℚ)) ∧
    truthy (eprofitVal ⟨some 200000, some 2000, none, none, some 50000⟩
      MetricsOutput.empty) ∧
    ∃ sc, (InvestmentMetrics.calculate_metrics
        ⟨some 200000, some 2000, none, none, some 50000⟩
        MetricsOutput.empty).investment_score = some sc ∧
      0 ≤ sc ∧ sc ≤ 100 :=
  ⟨by decide, by decide, by decide,
    claim_C6_score_in_range _ _ (by decide) (by decide) (by decide)⟩

theorem compCapRate_getD_eq (inp : MetricsInput) :
    (compCapRate inp).getD 0 = clamp100 (capVal inp * 10) * (4 / 10) := by
  unfold compCapRate
  split_ifs with h
  · rw [Option.getD_some]
  · push_neg at h
    rw [Option.getD_none, h]
    norm_num [clamp100]

/-- **C7**: with a fixed positive price, raising the monthly rent between two
truthy values never decreases the gross rental yield, the cap rate, or the
weighted cap-rate score component. -/
theorem claim_C7_rent_monotone (price r1 r2 : ℚ) (ev ar ap : Option ℚ)
    (m : MetricsOutput)
    (hp : 0 < price) (h1 : r1 ≠ 0) (h2 : r2 ≠ 0) (h12 : r1 ≤ r2) :
    (InvestmentMetrics.calculate_metrics ⟨some price, some r1, ev, ar, ap⟩
        m).gross_rental_yield.getD 0 ≤
      (InvestmentMetrics.calculate_metrics ⟨some price, some r2, ev, ar, ap⟩
        m).gross_rental_yield.getD 0 ∧
    (InvestmentMetrics.calculate_metrics ⟨some price, some r1, ev, ar, ap⟩
        m).cap_rate.getD 0 ≤
      (InvestmentMetrics.calculate_metrics ⟨some price, some r2, ev, ar, ap⟩
        m).cap_rate.getD 0 ∧
    (compCapRate ⟨some price, some r1, ev, ar, ap⟩).getD 0 ≤
      (compCapRate ⟨some price, some r2, ev, ar, ap⟩).getD 0 := by
  have hpne : price ≠ 0 := ne_of_gt hp
  have key : ∀ a b : ℚ, a ≤ b → a / price * 100 ≤ b / price * 100 := fun a b hab =>
    mul_le_mul_of_nonneg_right ((div_le_div_iff_of_pos_right hp).2 hab) (by norm_num)
  have hgry : gryVal ⟨some price, some r1, ev, ar, ap⟩ ≤
      gryVal ⟨some price, some r2, ev, ar, ap⟩ := by
    unfold gryVal annualRent priceVal
    dsimp only [Option.getD_some]
    exact key _ _ (by linarith)
  have hcap : capVal ⟨some price, some r1, ev, ar, ap⟩ ≤
      capVal ⟨some price, some r2, ev, ar, ap⟩ := by
    unfold capVal noiVal opexVal annualRent priceVal
    dsimp only [Option.getD_some]
    exact key _ _ (by linarith)
  have e1 : ∀ r : ℚ, r ≠ 0 →
      InvestmentMetrics.calculate_metrics ⟨some price, some r, ev, ar, ap⟩ m =
        { gross_rental_yield := some (gryVal ⟨some price, some r, ev, ar, ap⟩)
          net_operating_income := some (noiVal ⟨some price, some r, ev, ar, ap⟩)
          cap_rate := some (capVal ⟨some price, some r, ev, ar, ap⟩)
          roi := roiVal ⟨some price, some r, ev, ar, ap⟩ m
          estimated_profit := eprofitVal ⟨some price, some r, ev, ar, ap⟩ m
          price_to_rent := some (ptrVal ⟨some price, some r, ev, ar, ap⟩)
          risk_score := riskVal ⟨some price, some r, ev, ar, ap⟩ m
          investment_score := some (scoreVal ⟨some price, some r, ev, ar, ap⟩ m) } := by
    intro r hr
    unfold InvestmentMetrics.calculate_metrics
    rw [if_neg (fun hc => hc ⟨hpne, hr⟩)]
  rw [e1 r1 h1, e1 r2 h2]
  dsimp only [Option.getD_some]
  refine ⟨hgry, hcap, ?_⟩
  rw [compCapRate_getD_eq, compCapRate_getD_eq]
  exact mul_le_mul_of_nonneg_right (clamp100_mono (by linarith)) (by norm_num)

/-- **C7 (witness)**: price 200000 with rents 1000 and 2000. -/
theorem claim_C7_witness :
    (0 : ℚ) < 200000 ∧ (1000 : ℚ) ≠ 0 ∧ (2000 : ℚ) ≠ 0 ∧ (1000 : ℚ) ≤ 2000 ∧
    ((InvestmentMetrics.calculate_metrics ⟨some 200000, some 1000, none, none, none⟩
        MetricsOutput.empty).gross_rental_yield.getD 0 ≤
      (InvestmentMetrics.calculate_metrics ⟨some 200000, some 2000, none, none, none⟩
        MetricsOutput.empty).gross_rental_yield.getD 0 ∧
    (InvestmentMetrics.calculate_metrics ⟨some 200000, some 1000, none, none, none⟩
        MetricsOutput.empty).cap_rate.getD 0 ≤
      (InvestmentMetrics.calculate_metrics ⟨some 200000, some 2000, none, none, none⟩
        MetricsOutput.empty).cap_rate.getD 0 ∧
    (compCapRate ⟨some 200000, some 1000, none, none, none⟩).getD 0 ≤
      (compCapRate ⟨some 200000, some 2000, none, none, none⟩).getD 0) :=
  ⟨by norm_num, by norm_num, by norm_num, by norm_num,
    claim_C7_rent_monotone 200000 1000 2000 none none none MetricsOutput.empty
      (by norm_num) (by norm_num) (by norm_num) (by norm_num)⟩

/-- **C8**: when the property's price or estimated rent is `NULL`,
`calculate_metrics` returns before computing anything: the metrics record is
returned exactly as it was (in particular a fresh record keeps every field
`NULL`), and no exception can arise — the embedding is a total function. -/
theorem claim_C8_missing_input_noop (inp : MetricsInput) (m : MetricsOutput)
    (h : inp.current_price = none ∨ inp.estimated_rent = none) :
    InvestmentMetrics.calculate_metrics inp m = m := by
  unfold InvestmentMetrics.calculate_metrics
  rw [if_pos]
  intro hc
  rcases h with h | h
  · rw [h] at hc
    exact hc.1
  · rw [h] at hc
    exact hc.2

/-- **C8 (witness)**: a property with a price but `NULL` rent leaves a fresh
all-`NULL` metrics record all-`NULL`. -/
theorem claim_C8_witness :
    InvestmentMetrics.calculate_metrics ⟨some 100000, none, none, none, none⟩
        MetricsOutput.empty = MetricsOutput.empty ∧
    MetricsOutput.empty.gross_rental_yield = none ∧
    MetricsOutput.empty.net_operating_income = none ∧
    MetricsOutput.empty.cap_rate = none ∧
    MetricsOutput.empty.roi = none ∧
    MetricsOutput.empty.estimated_profit = none ∧
    MetricsOutput.empty.price_to_rent = none ∧
    MetricsOutput.empty.risk_score = none ∧
    MetricsOutput.empty.investment_score = none :=
  ⟨claim_C8_missing_input_noop _ _ (Or.inr rfl),
    rfl, rfl, rfl, rfl, rfl, rfl, rfl, rfl⟩

/-- **C9 (counterexample)**: the zero-denominator guards skip the assignment
instead of writing `0`.  A user whose `PortfolioMetrics` row still carries
`appreciation_percentage = 5` from an earlier state and who now owns zero
properties gets `5` back — not `0` — from a full recompute. -/
theorem claim_C9_counterexample :
    (PortfolioMetrics.calculate_metrics [] []
        ⟨3, 1, 1, 1, 1, 1, 7, 5, 1, 1, 9, 4, 2, 6⟩).appreciation_percentage = 5 ∧
    (5 : ℚ) ≠ 0 := by
  constructor
  · decide
  · norm_num

/-- **C9 (amended)**: recomputing for a user with zero owned properties sets
the unguarded metrics (counts, sums, cash-flow fields, diversification) to
`0`, but each metric behind an `if denominator > 0` guard is left at its
previous value rather than set to `0`; every field is `0` only when the
record was freshly created (all database defaults are `0`). -/
theorem claim_C9_empty_portfolio (m : PMRecord) :
    (PortfolioMetrics.calculate_metrics [] [] m).total_properties = 0 ∧
    (PortfolioMetrics.calculate_metrics [] [] m).total_investment = 0 ∧
    (PortfolioMetrics.calculate_metrics [] [] m).total_equity = 0 ∧
    (PortfolioMetrics.calculate_metrics [] [] m).total_monthly_income = 0 ∧
    (PortfolioMetrics.calculate_metrics [] [] m).total_monthly_expenses = 0 ∧
    (PortfolioMetrics.calculate_metrics [] [] m).portfolio_value = 0 ∧
    (PortfolioMetrics.calculate_metrics [] [] m).monthly_cash_flow = 0 ∧
    (PortfolioMetrics.calculate_metrics [] [] m).annual_cash_flow = 0 ∧
    (PortfolioMetrics.calculate_metrics [] [] m).diversification_score = 0 ∧
    (PortfolioMetrics.calculate_metrics [] [] m).total_appreciation =
      m.total_appreciation ∧
    (PortfolioMetrics.calculate_metrics [] [] m).appreciation_percentage =
      m.appreciation_percentage ∧
    (PortfolioMetrics.calculate_metrics [] [] m).cash_on_cash_return =
      m.cash_on_cash_return ∧
    (PortfolioMetrics.calculate_metrics [] [] m).total_return_percentage =
      m.total_return_percentage ∧
    (PortfolioMetrics.calculate_metrics [] [] m).portfolio_cap_rate =
      m.portfolio_cap_rate ∧
    PortfolioMetrics.calculate_metrics [] [] PMRecord.zero = PMRecord.zero := by
  unfold PortfolioMetrics.calculate_metrics PMRecord.zero
  norm_num
